import Mathlib

/-!
Verification of the asynchronous result-binding state machine of the
haystack-react repository (`useGrid`, `useWatch` in its two variants,
`useReadByIds` / `useReadByFilter` query functions, the scalar value
resolvers `useHaystackPoint` / `useHaystackRecordTag` and the mode
dispatcher `useResolveHaystackValue`).

The shallow embedding models each React hook binding as a small-step
state machine.  One "attempt" corresponds to one run of the effect body;
the environment chooses when awaited I/O settles and with which outcome.
Between suspension points the source executes atomically
(single-threaded cooperative scheduling), so each segment of the source
between two `await`s becomes one atomic step of the machine.
-/

set_option linter.unusedVariables false

namespace HaystackReact

/-- Records are abstract identities; a grid (`HGrid`) is an ordered
collection of records.  Grid internals never matter to the hooks under
verification, only emptiness and identity of the value stored. -/
abbrev Grid := List Nat

/-- The value of a freshly constructed `new HGrid()`. -/
def emptyGrid : Grid := []

/-- Errors are abstract; only their identity matters. -/
abbrev Err := String

/-- Outcome of an awaited asynchronous read (`getGrid()` /
`client.ops.read` / `client.record.readByFilter`): it either resolves
with a grid or rejects with an error. -/
inductive Outcome where
  | ok (g : Grid)
  | err (e : Err)
deriving DecidableEq, Repr

/-- The shared result cell: `interface GridData { grid; isLoading;
loads; error? }` of `client.ts` (and the equivalent `WatchData` /
`useState` quadruple of the watch hooks). -/
structure GridData where
  grid : Grid
  isLoading : Bool
  loads : Nat
  error : Option Err
deriving DecidableEq, Repr

/-- Initial cell contents: `{ grid: new HGrid(), isLoading: true,
loads: 0 }` (`client.ts` line 76). -/
def initGridData : GridData :=
  { grid := emptyGrid, isLoading := true, loads := 0, error := none }

/-! ## The `useGrid` machine (`client.ts`, `useRef` variant) -/

/-- Per-attempt state of one run of the `useGrid` effect body.
`cancel` is the `let cancel = false` flag captured by `doGetGrid` and
set by the effect's cleanup; `done` records that the single suspension
point (`await getGrid()`) has settled and the continuation has run. -/
structure GAttempt where
  cancel : Bool
  done : Bool
deriving DecidableEq, Repr

/-- Whole-binding state for `useGrid`: the shared `useRef` cell, the
`updates` counter behind `forceUpdate`, and every attempt started so
far, newest first. -/
structure GridSys where
  cell : GridData
  updates : Nat
  attempts : List GAttempt
deriving DecidableEq, Repr

/-- State when the component mounts. -/
def gInit : GridSys := { cell := initGridData, updates := 0, attempts := [] }

/-- Effect-cleanup action on the cell (`client.ts` lines 118-122):
`gridData.isLoading = false; gridData.error = undefined`. -/
def gCleanupCell (c : GridData) : GridData :=
  { c with isLoading := false, error := none }

/-- The cleanup also sets the previous attempt's `cancel` flag
(`cancel = true`).  The previous attempt is the newest one; its
cleanup runs at most once. -/
def gCleanupHead (s : GridSys) : GridSys :=
  match s.attempts with
  | [] => s
  | a :: rest =>
    if a.cancel then s
    else
      { s with cell := gCleanupCell s.cell
               attempts := { a with cancel := true } :: rest }

/-- The synchronous prefix of `doGetGrid` (`client.ts` lines 86-94):
record `wasLoading`, set `isLoading = true`, and `forceUpdate()` only
when the cell was not already loading. -/
def gSegA (s : GridSys) : GridSys :=
  let wasLoading := s.cell.isLoading
  { s with cell := { s.cell with isLoading := true }
           updates := if wasLoading then s.updates else s.updates + 1 }

/-- The continuation of `doGetGrid` after `await getGrid()` settles
(`client.ts` lines 96-113): the `try` arm writes `grid`, the `catch`
arm writes `error`, the `finally` arm bumps `loads` and clears
`isLoading` — each guarded by `if (!cancel)` — and `forceUpdate()`
runs unconditionally.  No suspension point separates the guards, so
`cancel` has a single value throughout. -/
def gSegB (cancel : Bool) (o : Outcome) (c : GridData) : GridData :=
  let c1 :=
    match o with
    | .ok g => if cancel then c else { c with grid := g }
    | .err e => if cancel then c else { c with error := some e }
  if cancel then c1 else { c1 with loads := c1.loads + 1, isLoading := false }

/-- Events the environment can schedule against a `useGrid` binding:
a dependency change (re-running the effect: previous cleanup, then a
new attempt's synchronous prefix), settlement of attempt `i`'s awaited
`getGrid()` call, or unmount. -/
inductive GEvent where
  | start
  | complete (i : Nat) (o : Outcome)
  | teardown
deriving DecidableEq, Repr

/-- A dependency change re-runs the effect: React first invokes the
previous effect's cleanup, then the new effect body, whose synchronous
prefix is `gSegA`; the new attempt's `cancel`/settled flags start
false (`let cancel = false`, `doGetGrid()` suspended at the await). -/
def gStart (s : GridSys) : GridSys :=
  let s1 := gCleanupHead s
  let s2 := gSegA s1
  { s2 with attempts := { cancel := false, done := false } :: s1.attempts }

/-- Attempt `i`'s awaited `getGrid()` promise settles with outcome `o`
and the rest of `doGetGrid` runs.  A promise settles at most once
(`done` guard); an unknown index is a scheduler no-op. -/
def gComplete (i : Nat) (o : Outcome) (s : GridSys) : GridSys :=
  match s.attempts[i]? with
  | none => s
  | some a =>
    if a.done then s
    else
      { cell := gSegB a.cancel o s.cell
        updates := s.updates + 1
        attempts := s.attempts.set i { a with done := true } }

/-- One scheduler step of the `useGrid` binding. -/
def gStep : GEvent → GridSys → GridSys
  | .start, s => gStart s
  | .complete i o, s => gComplete i o s
  | .teardown, s => gCleanupHead s

/-- Run a trace of events from the mount state. -/
def gRun (tr : List GEvent) : GridSys :=
  tr.foldl (fun s e => gStep e s) gInit

/-- Invariant: every attempt other than the newest has been cancelled
(its effect cleanup ran when the next attempt started). -/
def gInv (s : GridSys) : Prop :=
  ∀ i a, 1 ≤ i → s.attempts[i]? = some a → a.cancel = true

/-- A fully sequential schedule: each attempt's `getGrid` settles
(with the listed outcome) before the next dependency change starts a
new attempt, so no attempt is ever superseded while in flight. -/
def gSeqTrace : List Outcome → List GEvent
  | [] => []
  | o :: os => GEvent.start :: GEvent.complete 0 o :: gSeqTrace os

/-! ## The `useWatch` machines

Two source variants exist: the `useRef`-based one (file with
`const data = useRef<WatchData>()`, called `w1` below) and the legacy
`useState`-based one (`w2` below).  Both share the same inputs, the
same two suspension points (the filter read and `watch().make`) and the
same effect-cleanup, and differ in how they commit to the result cell.
-/

/-- External constant `DEFAULT_POLL_RATE_SECS` of haystack-nclient
(its documented value is 5 seconds; only positivity matters here). -/
def DEFAULT_POLL_RATE_SECS : Int := 5

/-- Arguments of one `useWatch` call, captured by one attempt.
`ids = none` models a falsy `ids` argument, `filter = ""` a falsy
`filter`, `display = ""` a falsy `display` (TS string truthiness). -/
structure WConfig where
  ids : Option Grid
  filter : String
  display : String
  pollRate : Int
  ops : Bool
deriving DecidableEq, Repr

/-- The label passed to `watch().make`:
`display || filter || ` useWatch@<timestamp>`` (the timestamp text is
elided; no claim concerns the generated label). -/
def watchLabel (cfg : WConfig) : String :=
  if cfg.display ≠ "" then cfg.display
  else if cfg.filter ≠ "" then cfg.filter
  else "useWatch@"

/-- The poll rate the `useRef` variant assigns to the created watch:
`watch.pollRate = pollRate > 0 ? pollRate : DEFAULT_POLL_RATE_SECS`. -/
def w1PollRate (pollRate : Int) : Int :=
  if pollRate > 0 then pollRate else DEFAULT_POLL_RATE_SECS

/-- The poll rate the legacy `useState` variant assigns:
`watch.pollRate = pollRate || DEFAULT_POLL_RATE_SECS`; `||` replaces
only a falsy (zero) value, a negative rate is kept as is. -/
def w2PollRate (pollRate : Int) : Int :=
  if pollRate ≠ 0 then pollRate else DEFAULT_POLL_RATE_SECS

/-- Where an attempt's `open()` call is currently suspended.
`awaitRead` is the filter resolution `await client...read(filter)`;
`awaitMake` is `await ...watch.make(label, ids)`; `closed` means
`open()` has returned (its promise has settled). -/
inductive WPhase where
  | awaitRead
  | awaitMake
  | closedOut
deriving DecidableEq, Repr

/-- Outcome of the awaited `watch.make` call: it resolves with a watch
handle (whose current `watch.grid` snapshot is `wgrid`) or rejects. -/
inductive MOutcome where
  | ok (wgrid : Grid)
  | err (e : Err)
deriving DecidableEq, Repr

/-- Per-attempt state of one run of the `useWatch` effect body, plus
observables of the external subscription collaborator: which arguments
`make` was invoked with, whether a watch handle was created, the poll
rate assigned to it, whether a `changed` callback was registered, how
many times `close()` has been invoked on it, and whether the settled
`open()` promise carried the watch (`return watch`) or `undefined`. -/
structure WAttempt where
  cfg : WConfig
  cancel : Bool := false
  phase : WPhase
  makeArgs : Option (String × Grid) := none
  handleCreated : Bool := false
  pollRateSet : Option Int := none
  changedRegistered : Bool := false
  resultWatch : Bool := false
  closes : Nat := 0
deriving DecidableEq, Repr

/-- Whole-binding state for `useWatch` (either variant): the shared
result cell, the `updates` counter, and every attempt, newest first. -/
structure WSys where
  cell : GridData
  updates : Nat
  attempts : List WAttempt
deriving DecidableEq, Repr

/-- Mount state (`data.current = { grid: new HGrid(), isLoading: true,
loads: 0 }` resp. the four `useState` initial values). -/
def wInit : WSys := { cell := initGridData, updates := 0, attempts := [] }

/-- Events the environment can schedule against a `useWatch` binding:
a dependency change (cleanup of the previous effect, then a new
attempt with arguments `cfg`), settlement of attempt `i`'s awaited
filter read or `make` call, a push notification from attempt `i`'s
watch, or unmount. -/
inductive WEvent where
  | start (cfg : WConfig)
  | readResolves (i : Nat) (o : Outcome)
  | makeResolves (i : Nat) (mo : MOutcome)
  | pushChange (i : Nat)
  | teardown
deriving DecidableEq, Repr

/-- Effect cleanup, identical in both variants: set `cancel`, reset
`isLoading = false` and `error = undefined` on the cell, and run the
chained `close()` — `await promise; watch?.close()`.  If `open()` has
already settled and returned the watch, that close fires now; if
`open()` is still in flight it fires when the creation promise
settles (handled in the settle steps, keyed on `cancel`).  A given
effect's cleanup runs at most once. -/
def wCleanupHead (s : WSys) : WSys :=
  match s.attempts with
  | [] => s
  | a :: rest =>
    if a.cancel then s
    else
      let a1 := { a with cancel := true }
      let a2 :=
        if a1.phase = WPhase.closedOut ∧ a1.resultWatch then
          { a1 with closes := a1.closes + 1 }
        else a1
      { s with cell := { s.cell with isLoading := false, error := none }
               attempts := a2 :: rest }

/-- The synchronous prefix of the `useRef` variant's `open()`:
record `wasLoading`, set `isLoading = true`, `forceUpdate()` only on a
loading transition; then, if no `ids` were supplied, either suspend at
the filter read (truthy `filter`) or synchronously take
`ids = new HGrid()`, commit the interim empty grid with
`isLoading = false` plus a `forceUpdate()`, and invoke `make` with the
empty grid; with caller-supplied `ids`, invoke `make` directly. -/
def w1SegA (cfg : WConfig) (s : WSys) : WSys :=
  let wasLoading := s.cell.isLoading
  let cell := { s.cell with isLoading := true }
  let upd := if wasLoading then s.updates else s.updates + 1
  match cfg.ids with
  | some g =>
    { cell := cell, updates := upd
      attempts :=
        { cfg := cfg, phase := .awaitMake
          makeArgs := some (watchLabel cfg, g) } :: s.attempts }
  | none =>
    if cfg.filter ≠ "" then
      { cell := cell, updates := upd
        attempts := { cfg := cfg, phase := .awaitRead } :: s.attempts }
    else
      { cell := { cell with grid := emptyGrid, isLoading := false }
        updates := upd + 1
        attempts :=
          { cfg := cfg, phase := .awaitMake
            makeArgs := some (watchLabel cfg, emptyGrid) } :: s.attempts }

/-- Continuation of the `useRef` variant after the filter read
settles.  On success with `cancel` set: bare `return` through the
`finally` (whose guarded block is skipped but whose `forceUpdate()`
still runs).  On success while live: commit the interim grid and
`isLoading = false`, `forceUpdate()`, then invoke `make` with the
resolved ids and suspend.  On failure: `catch`/`finally` with their
`if (!cancel)` guards, then `forceUpdate()`. -/
def w1ReadCont (a : WAttempt) (o : Outcome) (s : WSys) (i : Nat) : WSys :=
  match o with
  | .ok g =>
    if a.cancel then
      { s with updates := s.updates + 1
               attempts := s.attempts.set i { a with phase := .closedOut } }
    else
      { cell := { s.cell with grid := g, isLoading := false }
        updates := s.updates + 1
        attempts := s.attempts.set i
          { a with phase := .awaitMake
                   makeArgs := some (watchLabel a.cfg, g) } }
  | .err e =>
    let c1 := if a.cancel then s.cell else { s.cell with error := some e }
    let c2 := if a.cancel then c1
              else { c1 with isLoading := false, loads := c1.loads + 1 }
    { cell := c2, updates := s.updates + 1
      attempts := s.attempts.set i { a with phase := .closedOut } }

/-- Continuation of the `useRef` variant after `make` settles.  On
success with `cancel` set: `await watch.close(); return watch` — one
close from the bail path — then the cleanup's chained
`watch?.close()` fires on the settled promise, closing the same
handle a second time.  On success while live: assign the poll rate,
register the `changed` callback, commit `watch.grid`, and run the
live `finally`.  On failure: `catch`/`finally`; `open()` returns
`undefined` so the chained close is a no-op. -/
def w1MakeCont (a : WAttempt) (mo : MOutcome) (s : WSys) (i : Nat) : WSys :=
  match mo with
  | .ok wg =>
    if a.cancel then
      { s with updates := s.updates + 1
               attempts := s.attempts.set i
                 { a with phase := .closedOut, handleCreated := true
                          resultWatch := true, closes := a.closes + 2 } }
    else
      { cell := { s.cell with grid := wg, isLoading := false
                              loads := s.cell.loads + 1 }
        updates := s.updates + 1
        attempts := s.attempts.set i
          { a with phase := .closedOut, handleCreated := true
                   resultWatch := true
                   pollRateSet := some (w1PollRate a.cfg.pollRate)
                   changedRegistered := true } }
  | .err e =>
    let c1 := if a.cancel then s.cell else { s.cell with error := some e }
    let c2 := if a.cancel then c1
              else { c1 with isLoading := false, loads := c1.loads + 1 }
    { cell := c2, updates := s.updates + 1
      attempts := s.attempts.set i { a with phase := .closedOut } }

/-- One scheduler step of the `useRef`-variant `useWatch` binding.
Settle events are keyed on the attempt's suspension phase: a promise
settles at most once. -/
def w1Step : WEvent → WSys → WSys
  | .start cfg, s => w1SegA cfg (wCleanupHead s)
  | .readResolves i o, s =>
    match s.attempts[i]? with
    | none => s
    | some a => if a.phase = WPhase.awaitRead then w1ReadCont a o s i else s
  | .makeResolves i mo, s =>
    match s.attempts[i]? with
    | none => s
    | some a => if a.phase = WPhase.awaitMake then w1MakeCont a mo s i else s
  | .pushChange i, s =>
    match s.attempts[i]? with
    | none => s
    | some a =>
      if a.changedRegistered then { s with updates := s.updates + 1 } else s
  | .teardown, s => wCleanupHead s

/-- Run a trace of events against a `useRef`-variant binding. -/
def w1Run (tr : List WEvent) : WSys :=
  tr.foldl (fun s e => w1Step e s) wInit

/-- The synchronous prefix of the legacy `useState` variant's
`open()`: `setIsLoading(true)` unconditionally (no `wasLoading`
check, no extra render counter); in the synchronous empty-ids branch
it additionally runs `setGrid(ids)`, `setIsLoading(false)` and
`setLoads(++loads)` before invoking `make` with the empty grid. -/
def w2SegA (cfg : WConfig) (s : WSys) : WSys :=
  let cell := { s.cell with isLoading := true }
  match cfg.ids with
  | some g =>
    { cell := cell, updates := s.updates
      attempts :=
        { cfg := cfg, phase := .awaitMake
          makeArgs := some (watchLabel cfg, g) } :: s.attempts }
  | none =>
    if cfg.filter ≠ "" then
      { cell := cell, updates := s.updates
        attempts := { cfg := cfg, phase := .awaitRead } :: s.attempts }
    else
      { cell := { cell with grid := emptyGrid, isLoading := false
                            loads := cell.loads + 1 }
        updates := s.updates
        attempts :=
          { cfg := cfg, phase := .awaitMake
            makeArgs := some (watchLabel cfg, emptyGrid) } :: s.attempts }

/-- Continuation of the legacy variant after the filter read settles.
On success while live it commits `setGrid(ids)`, `setIsLoading(false)`
and `setLoads(++loads)` — an extra `loads` increment at interim
resolution — then invokes `make`.  With `cancel` set it bares out of
the `try`; the legacy `finally` contains no unconditional update. -/
def w2ReadCont (a : WAttempt) (o : Outcome) (s : WSys) (i : Nat) : WSys :=
  match o with
  | .ok g =>
    if a.cancel then
      { s with attempts := s.attempts.set i { a with phase := .closedOut } }
    else
      { cell := { s.cell with grid := g, isLoading := false
                              loads := s.cell.loads + 1 }
        updates := s.updates
        attempts := s.attempts.set i
          { a with phase := .awaitMake
                   makeArgs := some (watchLabel a.cfg, g) } }
  | .err e =>
    let c1 := if a.cancel then s.cell else { s.cell with error := some e }
    let c2 := if a.cancel then c1
              else { c1 with isLoading := false, loads := c1.loads + 1 }
    { cell := c2, updates := s.updates
      attempts := s.attempts.set i { a with phase := .closedOut } }

/-- Continuation of the legacy variant after `make` settles.  The
cancelled success path closes the watch and returns it — and the
cleanup's chained close then closes the same handle again.  The live
success path assigns `watch.pollRate = pollRate || DEFAULT`, registers
the `changed` callback, commits `setGrid(watch.grid)`, bumps
`setUpdates(++updates)` and runs the guarded `finally`. -/
def w2MakeCont (a : WAttempt) (mo : MOutcome) (s : WSys) (i : Nat) : WSys :=
  match mo with
  | .ok wg =>
    if a.cancel then
      { s with attempts := s.attempts.set i
                 { a with phase := .closedOut, handleCreated := true
                          resultWatch := true, closes := a.closes + 2 } }
    else
      { cell := { s.cell with grid := wg, isLoading := false
                              loads := s.cell.loads + 1 }
        updates := s.updates + 1
        attempts := s.attempts.set i
          { a with phase := .closedOut, handleCreated := true
                   resultWatch := true
                   pollRateSet := some (w2PollRate a.cfg.pollRate)
                   changedRegistered := true } }
  | .err e =>
    let c1 := if a.cancel then s.cell else { s.cell with error := some e }
    let c2 := if a.cancel then c1
              else { c1 with isLoading := false, loads := c1.loads + 1 }
    { cell := c2, updates := s.updates
      attempts := s.attempts.set i { a with phase := .closedOut } }

/-- One scheduler step of the legacy `useState`-variant binding. -/
def w2Step : WEvent → WSys → WSys
  | .start cfg, s => w2SegA cfg (wCleanupHead s)
  | .readResolves i o, s =>
    match s.attempts[i]? with
    | none => s
    | some a => if a.phase = WPhase.awaitRead then w2ReadCont a o s i else s
  | .makeResolves i mo, s =>
    match s.attempts[i]? with
    | none => s
    | some a => if a.phase = WPhase.awaitMake then w2MakeCont a mo s i else s
  | .pushChange i, s =>
    match s.attempts[i]? with
    | none => s
    | some a =>
      if a.changedRegistered then { s with updates := s.updates + 1 } else s
  | .teardown, s => wCleanupHead s

/-- Run a trace of events against a legacy `useState`-variant binding. -/
def w2Run (tr : List WEvent) : WSys :=
  tr.foldl (fun s e => w2Step e s) wInit

/-! ## Query functions of `useReadByIds` / `useReadByFilter` -/

/-- A one-shot read method of the external `Client` collaborator. -/
inductive ClientOp where
  | recordReadByIds (ids : List String)
  | opsRead (filter : String)
  | recordReadByFilter (filter : String)
deriving DecidableEq, Repr

/-- What a `getGrid` closure does when invoked: either it performs a
network read through the client, or it resolves directly to a grid
without any client call. -/
inductive GetGridAction where
  | network (op : ClientOp)
  | resolved (g : Grid)
deriving DecidableEq, Repr

/-- The `getGrid` closure `useReadByIds` passes to `useGrid` in
non-ops mode (`client.ts` lines 187-192):
`ids.length ? client.record.readByIds(ids) : new HGrid()`. -/
def useReadByIds_getGrid (ids : List String) : GetGridAction :=
  if ids.length ≠ 0 then .network (.recordReadByIds ids)
  else .resolved emptyGrid

/-- The `getGrid` closure `useReadByFilter` passes to `useGrid`
(`client.ts` lines 252-264): in ops mode
`filter ? client.ops.read(filter) : new HGrid()`, otherwise
`filter ? client.record.readByFilter(filter) : new HGrid()`. -/
def useReadByFilter_getGrid (ops : Bool) (filter : String) : GetGridAction :=
  if ops then
    if filter ≠ "" then .network (.opsRead filter) else .resolved emptyGrid
  else
    if filter ≠ "" then .network (.recordReadByFilter filter)
    else .resolved emptyGrid

/-! ## Point writes (`useWriteHaystackPoint`) -/

/-- `HaystackPointWriteOptions`: each field is optional; `none` means
the caller did not provide the key. -/
structure HaystackPointWriteOptions where
  level : Option Nat
  who : Option String
  duration : Option Int
deriving DecidableEq, Repr

/-- The argument object received by `client.ops.pointWrite`. -/
structure PointWriteArgs where
  id : String
  level : Nat
  who : Option String
  duration : Option Int
  val : Int
deriving DecidableEq, Repr

/-- The object `useWriteHaystackPoint`'s writer passes to
`client.ops.pointWrite`: the literal
`{ id, level: generalOptions?.level ?? 17, who: generalOptions?.who,
duration: generalOptions?.duration, ...options, val }`.  The spread
overrides exactly the keys present in the per-call `options`. -/
def pointWriteArgs (id : String)
    (generalOptions : Option HaystackPointWriteOptions)
    (options : Option HaystackPointWriteOptions)
    (val : Int) : PointWriteArgs :=
  let base : PointWriteArgs :=
    { id := id
      level := (generalOptions.bind (fun g => g.level)).getD 17
      who := generalOptions.bind (fun g => g.who)
      duration := generalOptions.bind (fun g => g.duration)
      val := val }
  match options with
  | none => base
  | some o =>
    { base with
      level := match o.level with | some l => l | none => base.level
      who := match o.who with | some w => some w | none => base.who
      duration :=
        match o.duration with | some d => some d | none => base.duration }

/-! ## Tag resolution and the mode dispatcher -/

/-- The `meta` descriptor of a `ResolvableDict` (`Resolvable.ts`),
restricted to the fields the tag path consults. -/
structure ResolvableMeta where
  resolveType : Option String
  readTag : Option String
  writeTag : Option String
deriving DecidableEq, Repr

/-- A dict possibly carrying a resolution descriptor; `id` holds the
record id in its Axon form (`HRef.toAxon`), `none` when absent. -/
structure RDict where
  id : Option String
  meta : Option ResolvableMeta
deriving DecidableEq, Repr

/-- `isResolvableTag` (`Resolvable.ts`): the dict carries a `meta`
with `resolveType === 'tag'` and a string `readTag`. -/
def isResolvableTag (d : RDict) : Bool :=
  match d.meta with
  | some m => m.resolveType = some "tag" && m.readTag.isSome
  | none => false

/-- The `tagName` argument the mode dispatcher passes down for a
tag-resolvable dict: `isTag ? resolvable.meta.readTag.value :
undefined` — always the read tag.  This same name is used both for
polling (`record?.get(tag)`) and as the write tag handed to
`useWriteHaystackRecordTag`. -/
def resolveTagName (d : RDict) : Option String :=
  if isResolvableTag d then d.meta.bind (fun m => m.readTag) else none

/-- The Axon expression built by `useWriteHaystackRecordTag`'s writer
(`useHaystackRecordTag.ts` lines 99-104): a `diff`/`commit` setting
the field `tag`, or removing it when no value is given. -/
def recordTagWriteExpr (id tag : String) (val : Option String) : String :=
  match val with
  | some v =>
    "read(id==" ++ id ++ ").diff(\x7b" ++ tag ++ ":" ++ v ++ "\x7d).commit"
  | none => "read(id==" ++ id ++ ").diff(\x7b-" ++ tag ++ "\x7d).commit"

/-- The writer produced for a dict along the dispatcher's tag path:
`useWriteHaystackRecordTag(originalRecord?.id, tagName)` returns a
writer only when `id && tag` are truthy, and that writer commits to
the field `tagName` = `resolveTagName d`. -/
def dispatchTagWriter (d : RDict) (val : Option String) : Option String :=
  match d.id, resolveTagName d with
  | some i, some tag =>
    if tag ≠ "" then some (recordTagWriteExpr i tag val) else none
  | _, _ => none

/-- Modelled from the spec and the repository documentation (the
`writeTag` doc comment in `Resolvable.ts`: "indicates what tag that
should be written. Defaults to readTag value if not defined", and the
README): the field name tag writes are documented to target. -/
def documentedWriteTag (d : RDict) : Option String :=
  if isResolvableTag d then
    match d.meta.bind (fun m => m.writeTag) with
    | some w => some w
    | none => d.meta.bind (fun m => m.readTag)
  else none

/-- Invariant for a `useWatch` binding (either variant): every attempt
other than the newest has been cancelled. -/
def wInv (s : WSys) : Prop :=
  ∀ i a, 1 ≤ i → s.attempts[i]? = some a → a.cancel = true

/-- Helper: replacing the element at one position with an element whose
`cancel` observation agrees preserves the tail-cancelled invariant on
a list of attempts. -/
theorem set_inv_of_cancel_eq {α : Type} (cancel : α → Bool) {l : List α}
    {i : Nat} {b b' : α}
    (hb : l[i]? = some b)
    (h : ∀ j a, 1 ≤ j → l[j]? = some a → cancel a = true) :
    ∀ j a, 1 ≤ j → (l.set i b')[j]? = some a → cancel b' = cancel b →
      cancel a = true := by
  intro j a hj ha hc
  by_cases hij : i = j
  · subst hij
    rw [List.getElem?_set_self', hb] at ha
    simp at ha
    subst ha
    exact hc.trans (h i b hj hb)
  · rw [List.getElem?_set_ne hij] at ha
    exact h j a hj ha

/-- Unfolding equation for `gCleanupHead` on an empty attempt list. -/
theorem gCleanupHead_nil (c : GridData) (u : Nat) :
    gCleanupHead { cell := c, updates := u, attempts := [] } =
      { cell := c, updates := u, attempts := [] } := rfl

/-- Unfolding equation for `gCleanupHead` on a nonempty attempt list. -/
theorem gCleanupHead_cons (c : GridData) (u : Nat) (b : GAttempt)
    (rest : List GAttempt) :
    gCleanupHead { cell := c, updates := u, attempts := b :: rest } =
      if b.cancel then { cell := c, updates := u, attempts := b :: rest }
      else { cell := gCleanupCell c, updates := u
             attempts := { b with cancel := true } :: rest } := rfl

/-- Helper: after the effect cleanup has run on the newest attempt,
every attempt of the binding is cancelled. -/
theorem gCleanupHead_all_cancel {s : GridSys} (h : gInv s) :
    ∀ (i : Nat) (a : GAttempt),
      (gCleanupHead s).attempts[i]? = some a → a.cancel = true := by
  obtain ⟨cell, upd, atts⟩ := s
  cases atts with
  | nil =>
    intro i a ha
    rw [gCleanupHead_nil] at ha
    simp at ha
  | cons b rest =>
    intro i a ha
    rw [gCleanupHead_cons] at ha
    cases hb : b.cancel with
    | true =>
      simp only [hb, if_true] at ha
      cases i with
      | zero =>
        simp only [List.getElem?_cons_zero, Option.some.injEq] at ha
        subst ha; exact hb
      | succ j =>
        simp only [List.getElem?_cons_succ] at ha
        exact h (j + 1) a (by omega) (by simpa using ha)
    | false =>
      simp only [hb, Bool.false_eq_true, if_false] at ha
      cases i with
      | zero =>
        simp only [List.getElem?_cons_zero, Option.some.injEq] at ha
        subst ha; rfl
      | succ j =>
        simp only [List.getElem?_cons_succ] at ha
        exact h (j + 1) a (by omega) (by simpa using ha)

theorem gInv_init : gInv gInit := by
  intro i a _ h
  simp [gInit] at h

theorem gInv_step (e : GEvent) (s : GridSys) (h : gInv s) : gInv (gStep e s) := by
  cases e with
  | start =>
    intro i a hi ha
    simp only [gStep, gStart, gSegA] at ha
    cases i with
    | zero => omega
    | succ j =>
      simp only [List.getElem?_cons_succ] at ha
      exact gCleanupHead_all_cancel h j a ha
  | complete i o =>
    intro j a hj ha
    simp only [gStep, gComplete] at ha
    cases hg : s.attempts[i]? with
    | none => rw [hg] at ha; exact h j a hj ha
    | some b =>
      rw [hg] at ha
      cases hd : b.done with
      | true => simp only [hd, if_true] at ha; exact h j a hj ha
      | false =>
        simp only [hd, Bool.false_eq_true, if_false] at ha
        exact set_inv_of_cancel_eq GAttempt.cancel hg h j a hj ha rfl
  | teardown =>
    intro i a hi ha
    simp only [gStep] at ha
    exact gCleanupHead_all_cancel h i a ha


theorem gInv_run (tr : List GEvent) : gInv (gRun tr) := by
  suffices h : ∀ s, gInv s → gInv (tr.foldl (fun s e => gStep e s) s) by
    exact h gInit gInv_init
  induction tr with
  | nil => intro s hs; simpa using hs
  | cons e tr ih =>
    intro s hs
    exact ih _ (gInv_step e s hs)

/-- Unfolding equation for `wCleanupHead` on an empty attempt list. -/
theorem wCleanupHead_nil (c : GridData) (u : Nat) :
    wCleanupHead { cell := c, updates := u, attempts := [] } =
      { cell := c, updates := u, attempts := [] } := rfl

/-- Unfolding equation for `wCleanupHead` on a nonempty attempt list. -/
theorem wCleanupHead_cons (c : GridData) (u : Nat) (b : WAttempt)
    (rest : List WAttempt) :
    wCleanupHead { cell := c, updates := u, attempts := b :: rest } =
      if b.cancel then { cell := c, updates := u, attempts := b :: rest }
      else
        { cell := { c with isLoading := false, error := none }, updates := u
          attempts :=
            (if b.phase = WPhase.closedOut ∧ b.resultWatch then
              { b with cancel := true, closes := b.closes + 1 }
            else { b with cancel := true }) :: rest } := rfl

/-- Helper: after the effect cleanup of the newest `useWatch` attempt
has run, every attempt of the binding is cancelled. -/
theorem wCleanupHead_all_cancel {s : WSys} (h : wInv s) :
    ∀ (i : Nat) (a : WAttempt),
      (wCleanupHead s).attempts[i]? = some a → a.cancel = true := by
  obtain ⟨cell, upd, atts⟩ := s
  cases atts with
  | nil =>
    intro i a ha
    rw [wCleanupHead_nil] at ha
    simp at ha
  | cons b rest =>
    intro i a ha
    rw [wCleanupHead_cons] at ha
    cases hb : b.cancel with
    | true =>
      simp only [hb, if_true] at ha
      cases i with
      | zero =>
        simp only [List.getElem?_cons_zero, Option.some.injEq] at ha
        subst ha; exact hb
      | succ j =>
        simp only [List.getElem?_cons_succ] at ha
        exact h (j + 1) a (by omega) (by simpa using ha)
    | false =>
      simp only [hb, Bool.false_eq_true, if_false] at ha
      cases i with
      | zero =>
        by_cases hq : b.phase = WPhase.closedOut ∧ b.resultWatch
        · rw [if_pos hq] at ha
          simp only [List.getElem?_cons_zero, Option.some.injEq] at ha
          subst ha; rfl
        · rw [if_neg hq] at ha
          simp only [List.getElem?_cons_zero, Option.some.injEq] at ha
          subst ha; rfl
      | succ j =>
        have ha' : rest[j]? = some a := by
          cases hq : decide (b.phase = WPhase.closedOut ∧ b.resultWatch) with
          | true =>
            rw [if_pos (of_decide_eq_true hq)] at ha
            simpa using ha
          | false =>
            rw [if_neg (of_decide_eq_false hq)] at ha
            simpa using ha
        exact h (j + 1) a (by omega) (by simpa using ha')

theorem wInv_init : wInv wInit := by
  intro i a _ h
  simp [wInit] at h

theorem wInv_step (e : WEvent) (s : WSys) (h : wInv s) : wInv (w1Step e s) := by
  cases e with
  | start cfg =>
    intro i a hi ha
    simp only [w1Step] at ha
    have hall := wCleanupHead_all_cancel h
    set s1 := wCleanupHead s with hs1
    obtain ⟨c1, u1, l1⟩ := s1
    cases hc : cfg.ids with
    | some g =>
      simp only [w1SegA, hc] at ha
      cases i with
      | zero => omega
      | succ j =>
        simp only [List.getElem?_cons_succ] at ha
        exact hall j a ha
    | none =>
      by_cases hf : cfg.filter ≠ ""
      · simp only [w1SegA, hc, if_pos hf] at ha
        cases i with
        | zero => omega
        | succ j =>
          simp only [List.getElem?_cons_succ] at ha
          exact hall j a ha
      · simp only [w1SegA, hc, if_neg hf] at ha
        cases i with
        | zero => omega
        | succ j =>
          simp only [List.getElem?_cons_succ] at ha
          exact hall j a ha
  | readResolves i o =>
    intro j a hj ha
    simp only [w1Step] at ha
    cases hg : s.attempts[i]? with
    | none => rw [hg] at ha; exact h j a hj ha
    | some b =>
      rw [hg] at ha
      by_cases hp : b.phase = WPhase.awaitRead
      · simp only [hp, if_true] at ha
        cases o with
        | ok g =>
          cases hc : b.cancel with
          | true =>
            simp only [w1ReadCont, hc, if_true] at ha
            exact set_inv_of_cancel_eq WAttempt.cancel hg h j a hj ha hc.symm
          | false =>
            simp only [w1ReadCont, hc, Bool.false_eq_true, if_false] at ha
            exact set_inv_of_cancel_eq WAttempt.cancel hg h j a hj ha hc.symm
        | err e =>
          simp only [w1ReadCont] at ha
          exact set_inv_of_cancel_eq WAttempt.cancel hg h j a hj ha rfl
      · simp only [hp, if_false] at ha
        exact h j a hj ha
  | makeResolves i mo =>
    intro j a hj ha
    simp only [w1Step] at ha
    cases hg : s.attempts[i]? with
    | none => rw [hg] at ha; exact h j a hj ha
    | some b =>
      rw [hg] at ha
      by_cases hp : b.phase = WPhase.awaitMake
      · simp only [hp, if_true] at ha
        cases mo with
        | ok wg =>
          cases hc : b.cancel with
          | true =>
            simp only [w1MakeCont, hc, if_true] at ha
            exact set_inv_of_cancel_eq WAttempt.cancel hg h j a hj ha hc.symm
          | false =>
            simp only [w1MakeCont, hc, Bool.false_eq_true, if_false] at ha
            exact set_inv_of_cancel_eq WAttempt.cancel hg h j a hj ha hc.symm
        | err e =>
          simp only [w1MakeCont] at ha
          exact set_inv_of_cancel_eq WAttempt.cancel hg h j a hj ha rfl
      · simp only [hp, if_false] at ha
        exact h j a hj ha
  | pushChange i =>
    intro j a hj ha
    simp only [w1Step] at ha
    cases hg : s.attempts[i]? with
    | none => rw [hg] at ha; exact h j a hj ha
    | some b =>
      rw [hg] at ha
      cases hc : b.changedRegistered with
      | true =>
        simp only [hc, if_true] at ha
        exact h j a hj ha
      | false =>
        simp only [hc, Bool.false_eq_true, if_false] at ha
        exact h j a hj ha
  | teardown =>
    intro i a hi ha
    simp only [w1Step] at ha
    exact wCleanupHead_all_cancel h i a ha

theorem wInv_run (tr : List WEvent) : wInv (w1Run tr) := by
  suffices h : ∀ s, wInv s → wInv (tr.foldl (fun s e => w1Step e s) s) by
    exact h wInit wInv_init
  induction tr with
  | nil => intro s hs; simpa using hs
  | cons e tr ih =>
    intro s hs
    exact ih _ (wInv_step e s hs)

/-! ## Per-event helper lemmas -/

/-- With `cancel` set, the `useGrid` continuation drops all writes. -/
theorem gSegB_cancel (o : Outcome) (c : GridData) : gSegB true o c = c := by
  cases o <;> rfl

/-- Settling a cancelled `useGrid` attempt leaves the cell unchanged. -/
theorem gComplete_cancelled_cell {s : GridSys} {i : Nat} {a : GAttempt}
    (o : Outcome) (hg : s.attempts[i]? = some a) (hc : a.cancel = true) :
    (gComplete i o s).cell = s.cell := by
  simp only [gComplete, hg]
  cases hd : a.done with
  | true => simp [hd]
  | false => simp [hd, hc, gSegB_cancel]

/-- A cancelled `useWatch` attempt's filter read settling leaves the
cell unchanged (`useRef` variant). -/
theorem w1Read_cancelled_cell {s : WSys} {i : Nat} {a : WAttempt}
    (o : Outcome) (hg : s.attempts[i]? = some a) (hc : a.cancel = true) :
    (w1Step (.readResolves i o) s).cell = s.cell := by
  simp only [w1Step, hg]
  by_cases hp : a.phase = WPhase.awaitRead
  · simp only [hp, if_true]
    cases o with
    | ok g => simp [w1ReadCont, hc]
    | err e => simp [w1ReadCont, hc]
  · simp [hp]

/-- A cancelled `useWatch` attempt's `make` call settling leaves the
cell unchanged (`useRef` variant). -/
theorem w1Make_cancelled_cell {s : WSys} {i : Nat} {a : WAttempt}
    (mo : MOutcome) (hg : s.attempts[i]? = some a) (hc : a.cancel = true) :
    (w1Step (.makeResolves i mo) s).cell = s.cell := by
  simp only [w1Step, hg]
  by_cases hp : a.phase = WPhase.awaitMake
  · simp only [hp, if_true]
    cases mo with
    | ok wg => simp [w1MakeCont, hc]
    | err e => simp [w1MakeCont, hc]
  · simp [hp]

/-! ## Claims -/

/-- Claim C2.  In both `useGrid` and the `useRef`-variant `useWatch`
— where each dependency change first sets the previous attempt's
cancel flag (built into the `start` step) — an attempt whose cancel
flag is set at the moment its awaited I/O settles performs no merge
into the result cell; consequently, along any reachable trace, an
attempt other than the most recently started one never mutates the
shared result fields (grid, isLoading, loads, error) when its I/O
settles, even if it settles after newer attempts finished. -/
theorem claim_C2 :
    (∀ (s : GridSys) (i : Nat) (o : Outcome) (a : GAttempt),
      s.attempts[i]? = some a → a.cancel = true →
      (gStep (.complete i o) s).cell = s.cell)
    ∧ (∀ (tr : List GEvent) (i : Nat) (o : Outcome) (a : GAttempt),
      (gRun tr).attempts[i]? = some a → 1 ≤ i →
      (gStep (.complete i o) (gRun tr)).cell = (gRun tr).cell)
    ∧ (∀ (s : WSys) (i : Nat) (a : WAttempt),
      s.attempts[i]? = some a → a.cancel = true →
      (∀ o, (w1Step (.readResolves i o) s).cell = s.cell)
      ∧ (∀ mo, (w1Step (.makeResolves i mo) s).cell = s.cell))
    ∧ (∀ (tr : List WEvent) (i : Nat) (a : WAttempt),
      (w1Run tr).attempts[i]? = some a → 1 ≤ i →
      (∀ o, (w1Step (.readResolves i o) (w1Run tr)).cell = (w1Run tr).cell)
      ∧ (∀ mo,
        (w1Step (.makeResolves i mo) (w1Run tr)).cell = (w1Run tr).cell)) := by
  refine ⟨?_, ?_, ?_, ?_⟩
  · intro s i o a hg hc
    exact gComplete_cancelled_cell o hg hc
  · intro tr i o a hg hi
    exact gComplete_cancelled_cell o hg (gInv_run tr i a hi hg)
  · intro s i a hg hc
    exact ⟨fun o => w1Read_cancelled_cell o hg hc,
           fun mo => w1Make_cancelled_cell mo hg hc⟩
  · intro tr i a hg hi
    have hc := wInv_run tr i a hi hg
    exact ⟨fun o => w1Read_cancelled_cell o hg hc,
           fun mo => w1Make_cancelled_cell mo hg hc⟩

/-- Witness for C2: concrete cancelled/superseded attempts settle
without changing the cell, in both machines. -/
theorem claim_C2_witness :
    (gStep (.complete 1 (.ok [5])) (gRun [.start, .start])).cell
        = (gRun [.start, .start]).cell
    ∧ (gStep (.complete 1 (.err "boom")) (gRun [.start, .start])).cell
        = (gRun [.start, .start]).cell
    ∧ (w1Step (.readResolves 1 (.ok [7]))
        (w1Run
          [.start { ids := none, filter := "a", display := ""
                    pollRate := 1, ops := false },
           .start { ids := none, filter := "b", display := ""
                    pollRate := 1, ops := false }])).cell
        = (w1Run
            [.start { ids := none, filter := "a", display := ""
                      pollRate := 1, ops := false },
             .start { ids := none, filter := "b", display := ""
                      pollRate := 1, ops := false }]).cell := by
  refine ⟨?_, ?_, ?_⟩
  · exact claim_C2.1 _ 1 _ { cancel := true, done := false } (by decide) rfl
  · exact (claim_C2.2.1 [.start, .start] 1 (.err "boom")
      { cancel := true, done := false } (by decide) (by omega))
  · exact ((claim_C2.2.2.2
      [.start { ids := none, filter := "a", display := ""
                pollRate := 1, ops := false },
       .start { ids := none, filter := "b", display := ""
                pollRate := 1, ops := false }] 1
      { cfg := { ids := none, filter := "a", display := ""
                 pollRate := 1, ops := false }
        cancel := true, phase := .awaitRead }
      (by decide) (by omega)).1 (.ok [7]))

/-- Claim C7.  A rejected `getGrid` never escapes `doGetGrid` (the
embedded continuation is total): for a live attempt the failure is
captured into `error`, the previously held grid is untouched,
`isLoading` ends false and `loads` is incremented by one. -/
theorem claim_C7 :
    ∀ (s : GridSys) (i : Nat) (e : Err) (a : GAttempt),
      s.attempts[i]? = some a → a.done = false → a.cancel = false →
      (gStep (.complete i (.err e)) s).cell.error = some e
      ∧ (gStep (.complete i (.err e)) s).cell.grid = s.cell.grid
      ∧ (gStep (.complete i (.err e)) s).cell.isLoading = false
      ∧ (gStep (.complete i (.err e)) s).cell.loads = s.cell.loads + 1 := by
  intro s i e a hg hd hc
  simp [gStep, gComplete, hg, hd, hc, gSegB]

/-- Witness for C7: a failing read on a freshly started attempt. -/
theorem claim_C7_witness :
    (gStep (.complete 0 (.err "not found")) (gRun [.start])).cell.error
        = some "not found"
    ∧ (gStep (.complete 0 (.err "not found")) (gRun [.start])).cell.grid
        = (gRun [.start]).cell.grid
    ∧ (gStep (.complete 0 (.err "not found")) (gRun [.start])).cell.isLoading
        = false
    ∧ (gStep (.complete 0 (.err "not found")) (gRun [.start])).cell.loads
        = (gRun [.start]).cell.loads + 1 :=
  claim_C7 (gRun [.start]) 0 "not found" { cancel := false, done := false }
    (by decide) rfl rfl

/-- Claim C9.  When a cancelled attempt's awaited I/O settles, the
`forceUpdate()` in the `finally` block still runs — the rerender
counter is bumped by one — while every result-cell field is left
unchanged (both `useGrid` and the `useRef` `useWatch`). -/
theorem claim_C9 :
    (∀ (s : GridSys) (i : Nat) (o : Outcome) (a : GAttempt),
      s.attempts[i]? = some a → a.done = false → a.cancel = true →
      (gStep (.complete i o) s).updates = s.updates + 1
      ∧ (gStep (.complete i o) s).cell = s.cell)
    ∧ (∀ (s : WSys) (i : Nat) (o : Outcome) (a : WAttempt),
      s.attempts[i]? = some a → a.phase = WPhase.awaitRead →
      a.cancel = true →
      (w1Step (.readResolves i o) s).updates = s.updates + 1
      ∧ (w1Step (.readResolves i o) s).cell = s.cell)
    ∧ (∀ (s : WSys) (i : Nat) (mo : MOutcome) (a : WAttempt),
      s.attempts[i]? = some a → a.phase = WPhase.awaitMake →
      a.cancel = true →
      (w1Step (.makeResolves i mo) s).updates = s.updates + 1
      ∧ (w1Step (.makeResolves i mo) s).cell = s.cell) := by
  refine ⟨?_, ?_, ?_⟩
  · intro s i o a hg hd hc
    refine ⟨?_, gComplete_cancelled_cell o hg hc⟩
    simp [gStep, gComplete, hg, hd]
  · intro s i o a hg hp hc
    refine ⟨?_, w1Read_cancelled_cell o hg hc⟩
    simp only [w1Step, hg, hp, if_true]
    cases o with
    | ok g => simp [w1ReadCont, hc]
    | err e => simp [w1ReadCont, hc]
  · intro s i mo a hg hp hc
    refine ⟨?_, w1Make_cancelled_cell mo hg hc⟩
    simp only [w1Step, hg, hp, if_true]
    cases mo with
    | ok wg => simp [w1MakeCont, hc]
    | err e => simp [w1MakeCont, hc]

/-- Witness for C9: concrete cancelled attempts settle with a single
rerender bump and an unchanged cell. -/
theorem claim_C9_witness :
    ((gStep (.complete 1 (.ok [3])) (gRun [.start, .start])).updates
        = (gRun [.start, .start]).updates + 1
      ∧ (gStep (.complete 1 (.ok [3])) (gRun [.start, .start])).cell
        = (gRun [.start, .start]).cell)
    ∧ ((w1Step (.makeResolves 0 (.ok [4]))
        (w1Run
          [.start { ids := some [4], filter := "", display := ""
                    pollRate := 2, ops := false },
           .teardown])).updates
        = (w1Run
            [.start { ids := some [4], filter := "", display := ""
                      pollRate := 2, ops := false },
             .teardown]).updates + 1
      ∧ (w1Step (.makeResolves 0 (.ok [4]))
          (w1Run
            [.start { ids := some [4], filter := "", display := ""
                      pollRate := 2, ops := false },
             .teardown])).cell
        = (w1Run
            [.start { ids := some [4], filter := "", display := ""
                      pollRate := 2, ops := false },
             .teardown]).cell) :=
  ⟨claim_C9.1 _ 1 (.ok [3]) { cancel := true, done := false }
      (by decide) rfl rfl,
   claim_C9.2.2 _ 0 (.ok [4])
      { cfg := { ids := some [4], filter := "", display := ""
                 pollRate := 2, ops := false }
        cancel := true, phase := .awaitMake
        makeArgs := some (watchLabel { ids := some [4], filter := ""
                                       display := "", pollRate := 2
                                       ops := false }, [4]) }
      (by decide) rfl rfl⟩

/-- The effect cleanup never touches the `loads` counter. -/
theorem gCleanupHead_cell_loads (s : GridSys) :
    (gCleanupHead s).cell.loads = s.cell.loads := by
  obtain ⟨c, u, atts⟩ := s
  cases atts with
  | nil => rw [gCleanupHead_nil]
  | cons b rest =>
    rw [gCleanupHead_cons]
    cases hb : b.cancel with
    | true => simp [hb]
    | false => simp [hb, gCleanupCell]

/-- Starting a new `useGrid` attempt never touches `loads`. -/
theorem gStart_cell_loads (s : GridSys) :
    (gStep .start s).cell.loads = s.cell.loads := by
  simp only [gStep, gStart, gSegA]
  exact gCleanupHead_cell_loads s

/-- The freshly started attempt sits at the head, live and pending. -/
theorem gStart_head (s : GridSys) :
    (gStep .start s).attempts[0]? = some { cancel := false, done := false } := by
  simp [gStep, gStart]

/-- A live pending attempt increments `loads` by exactly one when its
read settles, whatever the outcome. -/
theorem gComplete_live_loads {s : GridSys} {i : Nat} {a : GAttempt}
    (o : Outcome) (hg : s.attempts[i]? = some a) (hd : a.done = false)
    (hc : a.cancel = false) :
    (gComplete i o s).cell.loads = s.cell.loads + 1 := by
  simp only [gComplete, hg, hd, Bool.false_eq_true, if_false]
  cases o with
  | ok g => simp [gSegB, hc]
  | err e => simp [gSegB, hc]

/-- Along a fully sequential schedule, each settled attempt adds
exactly one to `loads`, from any starting state. -/
theorem gSeq_loads (os : List Outcome) :
    ∀ s : GridSys,
      ((gSeqTrace os).foldl (fun s e => gStep e s) s).cell.loads
        = s.cell.loads + os.length := by
  induction os with
  | nil => intro s; simp [gSeqTrace]
  | cons o os ih =>
    intro s
    have h1 : (gStep (.complete 0 o) (gStep .start s)).cell.loads
        = s.cell.loads + 1 := by
      have := gComplete_live_loads o (gStart_head s) rfl rfl
      rw [show gStep (GEvent.complete 0 o) (gStep .start s)
            = gComplete 0 o (gStep .start s) from rfl, this,
          gStart_cell_loads]
    simp only [gSeqTrace, List.foldl]
    rw [ih, h1]
    simp [List.length_cons]
    omega

/-- A cancelled legacy-variant attempt's filter read settling leaves
the cell unchanged. -/
theorem w2Read_cancelled_cell {s : WSys} {i : Nat} {a : WAttempt}
    (o : Outcome) (hg : s.attempts[i]? = some a) (hc : a.cancel = true) :
    (w2Step (.readResolves i o) s).cell = s.cell := by
  simp only [w2Step, hg]
  by_cases hp : a.phase = WPhase.awaitRead
  · simp only [hp, if_true]
    cases o with
    | ok g => simp [w2ReadCont, hc]
    | err e => simp [w2ReadCont, hc]
  · simp [hp]

/-- A cancelled legacy-variant attempt's `make` call settling leaves
the cell unchanged. -/
theorem w2Make_cancelled_cell {s : WSys} {i : Nat} {a : WAttempt}
    (mo : MOutcome) (hg : s.attempts[i]? = some a) (hc : a.cancel = true) :
    (w2Step (.makeResolves i mo) s).cell = s.cell := by
  simp only [w2Step, hg]
  by_cases hp : a.phase = WPhase.awaitMake
  · simp only [hp, if_true]
    cases mo with
    | ok wg => simp [w2MakeCont, hc]
    | err e => simp [w2MakeCont, hc]
  · simp [hp]

/-- Counterexample for C3.  In the legacy `useState` `useWatch`, one
fully settled, never-superseded filter attempt leaves `loads = 2`:
`setLoads(++loads)` runs once at interim filter resolution and again
in the completion `finally`, where the claim requires the counter to
equal the number of settled attempts, here 1. -/
theorem claim_C3_counterexample :
    (w2Run
      [.start { ids := none, filter := "point", display := ""
                pollRate := 1, ops := false },
       .readResolves 0 (.ok [1]),
       .makeResolves 0 (.ok [1])]).cell.loads = 2
    ∧ ((w2Run
      [.start { ids := none, filter := "point", display := ""
                pollRate := 1, ops := false },
       .readResolves 0 (.ok [1]),
       .makeResolves 0 (.ok [1])]).attempts.map
        (fun a => (a.cancel, a.phase))) = [(false, WPhase.closedOut)] := by
  decide

/-- Claim C3, amended.  For `useGrid` the claim holds exactly: a live
pending attempt adds one to `loads` on settlement (success or
failure), a cancelled attempt adds nothing, and after `k` fully
settled sequential attempts `loads = k`.  For the legacy `useState`
`useWatch` the completion `finally` also adds exactly one and
cancelled settles add nothing, but an attempt that performs interim
filter resolution additionally increments `loads` there, so a settled
filter attempt contributes two. -/
theorem claim_C3_amended :
    (∀ (s : GridSys) (i : Nat) (o : Outcome) (a : GAttempt),
      s.attempts[i]? = some a → a.done = false → a.cancel = false →
      (gStep (.complete i o) s).cell.loads = s.cell.loads + 1)
    ∧ (∀ (s : GridSys) (i : Nat) (o : Outcome) (a : GAttempt),
      s.attempts[i]? = some a → a.cancel = true →
      (gStep (.complete i o) s).cell.loads = s.cell.loads)
    ∧ (∀ os : List Outcome, (gRun (gSeqTrace os)).cell.loads = os.length)
    ∧ (∀ (s : WSys) (i : Nat) (mo : MOutcome) (a : WAttempt),
      s.attempts[i]? = some a → a.phase = WPhase.awaitMake →
      a.cancel = false →
      (w2Step (.makeResolves i mo) s).cell.loads = s.cell.loads + 1)
    ∧ (∀ (s : WSys) (i : Nat) (o : Outcome) (a : WAttempt),
      s.attempts[i]? = some a → a.phase = WPhase.awaitRead →
      a.cancel = false →
      (w2Step (.readResolves i o) s).cell.loads = s.cell.loads + 1)
    ∧ (∀ (s : WSys) (i : Nat) (a : WAttempt),
      s.attempts[i]? = some a → a.cancel = true →
      (∀ o, (w2Step (.readResolves i o) s).cell.loads = s.cell.loads)
      ∧ (∀ mo,
        (w2Step (.makeResolves i mo) s).cell.loads = s.cell.loads)) := by
  refine ⟨?_, ?_, ?_, ?_, ?_, ?_⟩
  · intro s i o a hg hd hc
    exact gComplete_live_loads o hg hd hc
  · intro s i o a hg hc
    rw [show gStep (GEvent.complete i o) s = gComplete i o s from rfl,
        gComplete_cancelled_cell o hg hc]
  · intro os
    have := gSeq_loads os gInit
    simpa [gRun, gInit, initGridData] using this
  · intro s i mo a hg hp hc
    simp only [w2Step, hg, hp, if_true]
    cases mo with
    | ok wg => simp [w2MakeCont, hc]
    | err e => simp [w2MakeCont, hc]
  · intro s i o a hg hp hc
    simp only [w2Step, hg, hp, if_true]
    cases o with
    | ok g => simp [w2ReadCont, hc]
    | err e => simp [w2ReadCont, hc]
  · intro s i a hg hc
    exact ⟨fun o => by rw [w2Read_cancelled_cell o hg hc],
           fun mo => by rw [w2Make_cancelled_cell mo hg hc]⟩

/-- Witness for the amended C3: concrete settling attempts and a
three-attempt sequential schedule. -/
theorem claim_C3_amended_witness :
    (gStep (.complete 0 (.ok [9])) (gRun [.start])).cell.loads
        = (gRun [.start]).cell.loads + 1
    ∧ (gStep (.complete 1 (.err "x")) (gRun [.start, .start])).cell.loads
        = (gRun [.start, .start]).cell.loads
    ∧ (gRun (gSeqTrace [.ok [1], .err "e", .ok [2]])).cell.loads = 3
    ∧ (w2Step (.readResolves 0 (.ok [1]))
        (w2Run
          [.start { ids := none, filter := "point", display := ""
                    pollRate := 1, ops := false }])).cell.loads
      = (w2Run
          [.start { ids := none, filter := "point", display := ""
                    pollRate := 1, ops := false }]).cell.loads + 1 := by
  refine ⟨?_, ?_, ?_, ?_⟩
  · exact claim_C3_amended.1 _ 0 _ { cancel := false, done := false }
      (by decide) rfl rfl
  · exact claim_C3_amended.2.1 _ 1 _ { cancel := true, done := false }
      (by decide) rfl
  · exact claim_C3_amended.2.2.1 [.ok [1], .err "e", .ok [2]]
  · exact claim_C3_amended.2.2.2.2.1 _ 0 _
      { cfg := { ids := none, filter := "point", display := ""
                 pollRate := 1, ops := false }
        cancel := false, phase := .awaitRead }
      (by decide) rfl rfl

/-- Claim C1, evaluated at the failing schedule.  When teardown is
requested while `make` is in flight, the settling attempt's bail path
runs `await watch.close(); return watch`, and the cleanup's chained
`watch?.close()` then closes the same handle a second time: the
created handle receives two `close()` calls, not one.  When the watch
settles before teardown, the single cleanup close yields exactly
one. -/
theorem claim_C1_bug :
    ((w1Run
      [.start { ids := some [1], filter := "", display := ""
                pollRate := 1, ops := false },
       .teardown,
       .makeResolves 0 (.ok [1])]).attempts.map
        (fun a => (a.handleCreated, a.closes))) = [(true, 2)]
    ∧ ((w1Run
      [.start { ids := some [1], filter := "", display := ""
                pollRate := 1, ops := false },
       .makeResolves 0 (.ok [1]),
       .teardown]).attempts.map
        (fun a => (a.handleCreated, a.closes))) = [(true, 1)] := by
  decide

/-- Counterexample for C4.  With no `ids` and no `filter`, the
`useRef` `useWatch` resolves the id set to an empty grid and then
still invokes `watch.make` with that empty grid — `makeArgs` is
populated, refuting "no subscription is created". -/
theorem claim_C4_counterexample :
    ((w1Run
      [.start { ids := none, filter := "", display := ""
                pollRate := 1, ops := false }]).attempts.map
        (fun a => a.makeArgs)) = [some ("useWatch@", emptyGrid)]
    ∧ (w1Run
        [.start { ids := none, filter := "", display := ""
                  pollRate := 1, ops := false }]).cell.grid = emptyGrid := by
  decide

/-- Claim C4, amended.  When the id set resolves to empty (no ids and
no filter, or a filter read resolving to an empty grid while live),
`data` becomes the empty grid with `isLoading = false`, and the
external `watch.make` IS invoked for that attempt, with the empty id
set as argument. -/
theorem claim_C4_amended :
    (∀ (s : WSys) (cfg : WConfig), cfg.ids = none → cfg.filter = "" →
      (w1Step (.start cfg) s).cell.grid = emptyGrid
      ∧ (w1Step (.start cfg) s).cell.isLoading = false
      ∧ ((w1Step (.start cfg) s).attempts[0]?.map (fun a => a.makeArgs))
          = some (some (watchLabel cfg, emptyGrid)))
    ∧ (∀ (s : WSys) (i : Nat) (a : WAttempt),
      s.attempts[i]? = some a → a.phase = WPhase.awaitRead →
      a.cancel = false →
      (w1Step (.readResolves i (.ok emptyGrid)) s).cell.grid = emptyGrid
      ∧ (w1Step (.readResolves i (.ok emptyGrid)) s).cell.isLoading = false
      ∧ ((w1Step (.readResolves i (.ok emptyGrid)) s).attempts[i]?.map
          (fun b => b.makeArgs))
          = some (some (watchLabel a.cfg, emptyGrid))) := by
  constructor
  · intro s cfg hi hf
    refine ⟨?_, ?_, ?_⟩ <;>
      simp [w1Step, w1SegA, hi, hf]
  · intro s i a hg hp hc
    have hstep : w1Step (.readResolves i (.ok emptyGrid)) s
        = w1ReadCont a (.ok emptyGrid) s i := by
      simp only [w1Step, hg, hp, if_true]
    refine ⟨?_, ?_, ?_⟩ <;> rw [hstep]
    · simp [w1ReadCont, hc]
    · simp [w1ReadCont, hc]
    · simp only [w1ReadCont, hc, Bool.false_eq_true, if_false]
      rw [List.getElem?_set_self', hg]
      simp

/-- Witness for the amended C4: the no-ids-no-filter case on the
mount state and an empty filter resolution on a live attempt. -/
theorem claim_C4_amended_witness :
    ((w1Step
      (.start { ids := none, filter := "", display := ""
                pollRate := 1, ops := false }) wInit).cell.grid = emptyGrid
    ∧ (w1Step
        (.start { ids := none, filter := "", display := ""
                  pollRate := 1, ops := false }) wInit).cell.isLoading = false
    ∧ ((w1Step
        (.start { ids := none, filter := "", display := ""
                  pollRate := 1, ops := false }) wInit).attempts[0]?.map
          (fun a => a.makeArgs))
        = some (some (watchLabel { ids := none, filter := "", display := ""
                                   pollRate := 1, ops := false },
            emptyGrid)))
    ∧ ((w1Step (.readResolves 0 (.ok emptyGrid))
        (w1Run
          [.start { ids := none, filter := "empty", display := ""
                    pollRate := 1, ops := false }])).cell.grid = emptyGrid
    ∧ (w1Step (.readResolves 0 (.ok emptyGrid))
        (w1Run
          [.start { ids := none, filter := "empty", display := ""
                    pollRate := 1, ops := false }])).cell.isLoading = false
    ∧ ((w1Step (.readResolves 0 (.ok emptyGrid))
        (w1Run
          [.start { ids := none, filter := "empty", display := ""
                    pollRate := 1, ops := false }])).attempts[0]?.map
          (fun b => b.makeArgs))
        = some (some ("empty", emptyGrid))) :=
  ⟨claim_C4_amended.1 wInit
      { ids := none, filter := "", display := "", pollRate := 1, ops := false }
      rfl rfl,
   claim_C4_amended.2 _ 0
      { cfg := { ids := none, filter := "empty", display := ""
                 pollRate := 1, ops := false }
        cancel := false, phase := .awaitRead }
      (by decide) rfl rfl⟩

/-- Counterexample for C6.  The legacy `useState` `useWatch` computes
`watch.pollRate = pollRate || DEFAULT_POLL_RATE_SECS`: a negative
rate is truthy, so `pollRate = -1` is assigned to the handle as is
instead of the default. -/
theorem claim_C6_counterexample :
    ((w2Run
      [.start { ids := some [1], filter := "", display := ""
                pollRate := -1, ops := false },
       .makeResolves 0 (.ok [1])]).attempts.map
        (fun a => a.pollRateSet)) = [some (-1)]
    ∧ DEFAULT_POLL_RATE_SECS = 5 := by
  decide

/-- Claim C6, amended.  The `useRef` `useWatch` behaves as claimed:
the handle's poll rate is the default for every `pollRate ≤ 0` and
the given value for every `pollRate > 0`.  The legacy `useState`
variant substitutes the default only for `pollRate = 0` (falsiness),
assigning any nonzero — including negative — rate unchanged. -/
theorem claim_C6_amended :
    (∀ pr : Int, pr ≤ 0 → w1PollRate pr = DEFAULT_POLL_RATE_SECS)
    ∧ (∀ pr : Int, 0 < pr → w1PollRate pr = pr)
    ∧ (∀ (s : WSys) (i : Nat) (wg : Grid) (a : WAttempt),
      s.attempts[i]? = some a → a.phase = WPhase.awaitMake →
      a.cancel = false →
      ((w1Step (.makeResolves i (.ok wg)) s).attempts[i]?.map
        (fun b => b.pollRateSet)) = some (some (w1PollRate a.cfg.pollRate)))
    ∧ w2PollRate 0 = DEFAULT_POLL_RATE_SECS
    ∧ (∀ pr : Int, pr ≠ 0 → w2PollRate pr = pr)
    ∧ (∀ (s : WSys) (i : Nat) (wg : Grid) (a : WAttempt),
      s.attempts[i]? = some a → a.phase = WPhase.awaitMake →
      a.cancel = false →
      ((w2Step (.makeResolves i (.ok wg)) s).attempts[i]?.map
        (fun b => b.pollRateSet)) = some (some (w2PollRate a.cfg.pollRate))) := by
  refine ⟨?_, ?_, ?_, ?_, ?_, ?_⟩
  · intro pr h
    rw [w1PollRate, if_neg (by omega)]
  · intro pr h
    rw [w1PollRate, if_pos h]
  · intro s i wg a hg hp hc
    simp only [w1Step, hg, hp, if_true, w1MakeCont, hc, Bool.false_eq_true,
      if_false]
    rw [List.getElem?_set_self', hg]
    simp
  · rw [w2PollRate]
    simp
  · intro pr h
    rw [w2PollRate, if_pos h]
  · intro s i wg a hg hp hc
    simp only [w2Step, hg, hp, if_true, w2MakeCont, hc, Bool.false_eq_true,
      if_false]
    rw [List.getElem?_set_self', hg]
    simp

/-- Witness for the amended C6: concrete nonpositive, positive, zero
and negative rates, and a live `make` settlement in each machine. -/
theorem claim_C6_amended_witness :
    w1PollRate (-1) = DEFAULT_POLL_RATE_SECS
    ∧ w1PollRate 3 = 3
    ∧ w2PollRate (-1) = -1
    ∧ ((w1Step (.makeResolves 0 (.ok [1]))
        (w1Run
          [.start { ids := some [1], filter := "", display := ""
                    pollRate := -1, ops := false }])).attempts[0]?.map
          (fun b => b.pollRateSet)) = some (some (w1PollRate (-1)))
    ∧ ((w2Step (.makeResolves 0 (.ok [1]))
        (w2Run
          [.start { ids := some [1], filter := "", display := ""
                    pollRate := -1, ops := false }])).attempts[0]?.map
          (fun b => b.pollRateSet)) = some (some (w2PollRate (-1))) :=
  ⟨claim_C6_amended.1 (-1) (by omega),
   claim_C6_amended.2.1 3 (by omega),
   claim_C6_amended.2.2.2.2.1 (-1) (by omega),
   claim_C6_amended.2.2.1 _ 0 [1]
      { cfg := { ids := some [1], filter := "", display := ""
                 pollRate := -1, ops := false }
        cancel := false, phase := .awaitMake
        makeArgs := some (watchLabel { ids := some [1], filter := ""
                                       display := "", pollRate := -1
                                       ops := false }, [1]) }
      (by decide) rfl rfl,
   claim_C6_amended.2.2.2.2.2 _ 0 [1]
      { cfg := { ids := some [1], filter := "", display := ""
                 pollRate := -1, ops := false }
        cancel := false, phase := .awaitMake
        makeArgs := some (watchLabel { ids := some [1], filter := ""
                                       display := "", pollRate := -1
                                       ops := false }, [1]) }
      (by decide) rfl rfl⟩

/-- Claim C5, evaluated at the failing input.  For a tag-resolvable
dict with `readTag = "precision"` and `writeTag = "maxVal"`, the mode
dispatcher hands `readTag` down as the one tag name, so the produced
writer commits to the field `precision`; the repository's own
documentation (the `writeTag` doc comment and the README) prescribes
writes to `maxVal`.  `writeTag` is never consulted by the code. -/
theorem claim_C5_bug :
    resolveTagName
      { id := some "@a"
        meta := some { resolveType := some "tag"
                       readTag := some "precision"
                       writeTag := some "maxVal" } } = some "precision"
    ∧ documentedWriteTag
      { id := some "@a"
        meta := some { resolveType := some "tag"
                       readTag := some "precision"
                       writeTag := some "maxVal" } } = some "maxVal"
    ∧ dispatchTagWriter
      { id := some "@a"
        meta := some { resolveType := some "tag"
                       readTag := some "precision"
                       writeTag := some "maxVal" } } (some "5")
        = some "read(id==@a).diff(\x7bprecision:5\x7d).commit"
    ∧ resolveTagName
      { id := some "@a"
        meta := some { resolveType := some "tag"
                       readTag := some "precision"
                       writeTag := some "maxVal" } }
      ≠ documentedWriteTag
      { id := some "@a"
        meta := some { resolveType := some "tag"
                       readTag := some "precision"
                       writeTag := some "maxVal" } } := by
  refine ⟨rfl, rfl, rfl, ?_⟩
  decide

/-- Claim C8.  The effective `pointWrite` arguments follow the
precedence `options` over `generalOptions` over the default: the
priority level falls back through the per-call level, the hook-level
general level, and finally the numeric floor constant 17; `who` and
`duration` fall back from per-call to general with no further
default. -/
theorem claim_C8 :
    ∀ (id : String) (general options : Option HaystackPointWriteOptions)
      (val : Int),
      (pointWriteArgs id general options val).level
        = (Option.or (options.bind fun o => o.level)
            (general.bind fun g => g.level)).getD 17
      ∧ (pointWriteArgs id general options val).who
        = Option.or (options.bind fun o => o.who)
            (general.bind fun g => g.who)
      ∧ (pointWriteArgs id general options val).duration
        = Option.or (options.bind fun o => o.duration)
            (general.bind fun g => g.duration)
      ∧ (pointWriteArgs id general options val).id = id
      ∧ (pointWriteArgs id general options val).val = val := by
  intro id general options val
  cases options with
  | none => simp [pointWriteArgs, Option.or]
  | some o =>
    obtain ⟨lv, wh, du⟩ := o
    cases lv <;> cases wh <;> cases du <;> simp [pointWriteArgs, Option.or]

/-- Claim C10.  An empty ids list (non-ops mode) or an empty filter
string yields a `getGrid` closure that resolves directly to the empty
grid without invoking any client read method. -/
theorem claim_C10 :
    useReadByIds_getGrid [] = .resolved emptyGrid
    ∧ (∀ ops : Bool, useReadByFilter_getGrid ops "" = .resolved emptyGrid) := by
  constructor
  · rfl
  · intro ops
    cases ops <;> rfl

end HaystackReact
